import Mathlib

/-!
Shallow embedding of the bead-field canvas renderer (`src`, Canvas component).

JavaScript `number` values are modelled as real numbers `ℝ`.  The component's
Leva-controlled parameters together with the host props (`height`, `width`,
`scale`) form the `Params` record.  The dark-mode media query result is an
explicit `darkMode : Bool` argument.  Draw commands issued to the 2D context
are reified as a `DrawCall` list; the `beginPath / arc / fillStyle / fill`
sequence the code always emits as a unit is reified as one filled-circle call.
-/

namespace Speeka

structure MoveResult where
  radius : ℝ
  color : String

structure Bead where
  x : ℝ
  y : ℝ
  radius : ℝ
  move : ℝ → MoveResult
  color : String

structure Ring where
  radius : ℝ
  beads : List Bead

/-- The Leva-controlled parameters of the Canvas component, together with the
host-supplied `height`, `width` and `scale` props. -/
structure Params where
  spacing : ℝ
  outerRingRadius : ℝ
  numRings : ℕ
  beadRadius : ℝ
  drawCenterBead : Bool
  animationRunning : Bool
  rotation : ℝ
  color1 : String
  color2 : String
  height : ℝ
  width : ℝ
  scale : ℝ

/-- `window.matchMedia("(prefers-color-scheme: dark)")` based bead color. -/
def beadColor (darkMode : Bool) : String :=
  if darkMode then "#fff" else "#000"

noncomputable def canvasCenterX (p : Params) : ℝ := p.scale * p.width / 2

noncomputable def canvasCenterY (p : Params) : ℝ := p.scale * p.height / 2

/-- `generateMovement`: the per-bead motion closure.  It captures `color1` and
`color2`; `x`, `y` and `ringIdx` mirror the source's optional parameters,
which the body never reads. -/
noncomputable def generateMovement (color1 color2 : String) (r i : ℝ)
    (x y ringIdx : Option ℝ) (t : ℝ) : MoveResult :=
  let level := Real.sin (Real.log (i + 2) * t)
  { radius := |level * r|
    color := if level < 0 then color2 else color1 }

/-- `const angle = 2 * Math.asin(spacing / (2 * ringRadius))` in
`createBeadRing`. -/
noncomputable def angularSpacing (spacing ringRadius : ℝ) : ℝ :=
  2 * Real.arcsin (spacing / (2 * ringRadius))

/-- `const numPoints = Math.floor((2 * Math.PI) / angle)` in
`createBeadRing`. -/
noncomputable def pointCount (spacing ringRadius : ℝ) : ℤ :=
  ⌊2 * Real.pi / angularSpacing spacing ringRadius⌋

/-- `const startingAngle = rotation * (2 * Math.PI) * ringIndex` in
`createBeadRing`. -/
noncomputable def startingAngle (rotation ringIndex : ℝ) : ℝ :=
  rotation * (2 * Real.pi) * ringIndex

/-- One iteration body of the `createBeadRing` loop: the bead pushed for loop
variable `i`. -/
noncomputable def mkBead (p : Params) (darkMode : Bool) (ringRadius ringIndex : ℝ)
    (numPoints : ℤ) (i : ℝ) : Bead :=
  let px := canvasCenterX p + ringRadius * Real.cos (i * 2 * Real.pi / (numPoints : ℝ))
  let py := canvasCenterY p + ringRadius * Real.sin (i * 2 * Real.pi / (numPoints : ℝ))
  { x := px
    y := py
    radius := p.beadRadius
    move := generateMovement p.color1 p.color2 p.beadRadius i (some px) (some py)
      (some ringIndex)
    color := beadColor darkMode }

/-- `for (let i = start; i < stop; i++) acc.push(body(i))`, with a real-valued
loop variable, as in `createBeadRing`. -/
noncomputable def jsForLoop {α : Type} (body : ℝ → α) (stop i : ℝ) : List α :=
  if h : i < stop then body i :: jsForLoop body stop (i + 1) else []
termination_by (⌈stop - i⌉).toNat
decreasing_by
  have h1 : (0 : ℤ) < ⌈stop - i⌉ := by
    rw [Int.lt_ceil]
    push_cast
    linarith
  have h2 : ⌈stop - (i + 1)⌉ = ⌈stop - i⌉ - 1 := by
    have h3 : stop - (i + 1) = stop - i + ((-1 : ℤ) : ℝ) := by push_cast; ring
    rw [h3, Int.ceil_add_int]
    ring
  omega

/-- `createBeadRing(ringRadius, ringIndex)`.  When
`|spacing / (2 * ringRadius)| > 1`, JavaScript's `Math.asin` returns `NaN`,
so `numPoints` is `NaN` and the loop guard `i < numPoints + startingAngle` is
false at once: the ring is empty.  The `else` branch models exactly that
observable outcome.  (The case `angularSpacing = 0`, i.e. `spacing = 0`, would
make the JavaScript loop bound `Infinity`; no claim touches it, and Lean's
`x / 0 = 0` convention makes the ring empty there.) -/
noncomputable def createBeadRing (p : Params) (darkMode : Bool)
    (ringRadius ringIndex : ℝ) : List Bead :=
  if |p.spacing / (2 * ringRadius)| ≤ 1 then
    jsForLoop
      (fun i => mkBead p darkMode ringRadius ringIndex (pointCount p.spacing ringRadius) i)
      ((pointCount p.spacing ringRadius : ℝ) + startingAngle p.rotation ringIndex)
      (0 + startingAngle p.rotation ringIndex)
  else
    []

/-- `ringLayers`: `for (let i = 0; i < numRings; i++)` pushing
`{ radius, beads: createBeadRing(radius, i + 1) }` with
`radius = outerRingRadius - i * (outerRingRadius / numRings)`. -/
noncomputable def ringLayers (p : Params) (darkMode : Bool) : List Ring :=
  (List.range p.numRings).map fun (i : ℕ) =>
    { radius := p.outerRingRadius - (i : ℝ) * (p.outerRingRadius / (p.numRings : ℝ))
      beads := createBeadRing p darkMode
        (p.outerRingRadius - (i : ℝ) * (p.outerRingRadius / (p.numRings : ℝ)))
        ((i : ℝ) + 1) }

/-- A reified 2D-context command.  `circle` stands for the
`beginPath; arc(x, y, radius, 0, 2π); fillStyle = color; fill()` unit. -/
inductive DrawCall where
  | clearRect (x y w h : ℝ)
  | circle (x y radius : ℝ) (color : String)

def DrawCall.isCircle : DrawCall → Bool
  | .circle _ _ _ _ => true
  | _ => false

def DrawCall.callCenter : DrawCall → Option (ℝ × ℝ)
  | .circle x y _ _ => some (x, y)
  | _ => none

def DrawCall.callRadius : DrawCall → Option ℝ
  | .circle _ _ r _ => some r
  | _ => none

def DrawCall.callColor : DrawCall → Option String
  | .circle _ _ _ c => some c
  | _ => none

/-- The per-bead body of `draw`'s inner loop: pick animated or static
attributes, then issue the filled-circle call. -/
noncomputable def drawBead (p : Params) (darkMode : Bool) (t : ℝ) (b : Bead) : DrawCall :=
  let res := if p.animationRunning then b.move t
             else { radius := b.radius, color := beadColor darkMode }
  DrawCall.circle b.x b.y res.radius res.color

/-- The center-bead call in `draw`.  Note the source computes the radius
conditionally on `animationRunning` but sets `fillStyle` from
`generateMovement(beadRadius, 0)(t).color` unconditionally. -/
noncomputable def centerBeadCall (p : Params) (t : ℝ) : DrawCall :=
  DrawCall.circle (canvasCenterX p) (canvasCenterY p)
    (if p.animationRunning
      then (generateMovement p.color1 p.color2 p.beadRadius 0 none none none t).radius
      else p.beadRadius)
    ((generateMovement p.color1 p.color2 p.beadRadius 0 none none none t).color)

/-- The ring-bead portion of one frame of `draw`. -/
noncomputable def ringDrawCalls (p : Params) (darkMode : Bool) (t : ℝ) : List DrawCall :=
  (ringLayers p darkMode).flatMap fun ring => ring.beads.map (drawBead p darkMode t)

/-- One full frame of `draw` at elapsed time `t`: clear, ring beads, then the
optional center bead. -/
noncomputable def frameDrawCalls (p : Params) (darkMode : Bool) (t : ℝ) : List DrawCall :=
  DrawCall.clearRect 0 0 (p.height * p.scale) (p.width * p.scale)
    :: ringDrawCalls p darkMode t
    ++ (if p.drawCenterBead then [centerBeadCall p t] else [])

/-! ### Loop lemmas -/

theorem jsForLoop_of_not_lt {α : Type} (body : ℝ → α) (stop i : ℝ) (h : ¬ i < stop) :
    jsForLoop body stop i = [] := by
  rw [jsForLoop, dif_neg h]

theorem jsForLoop_of_lt {α : Type} (body : ℝ → α) (stop i : ℝ) (h : i < stop) :
    jsForLoop body stop i = body i :: jsForLoop body stop (i + 1) := by
  rw [jsForLoop, dif_pos h]

theorem ceil_sub_succ (stop i : ℝ) : ⌈stop - (i + 1)⌉ = ⌈stop - i⌉ - 1 := by
  have h3 : stop - (i + 1) = stop - i + ((-1 : ℤ) : ℝ) := by push_cast; ring
  rw [h3, Int.ceil_add_int]
  ring

theorem ceil_pos_of_lt (stop i : ℝ) (h : i < stop) : (0 : ℤ) < ⌈stop - i⌉ := by
  rw [Int.lt_ceil]
  push_cast
  linarith

theorem jsForLoop_length {α : Type} (body : ℝ → α) (stop i : ℝ) :
    (jsForLoop body stop i).length = (⌈stop - i⌉).toNat := by
  generalize hn : (⌈stop - i⌉).toNat = n
  induction n generalizing i with
  | zero =>
    have h : ¬ i < stop := fun hlt => by
      have h1 := ceil_pos_of_lt stop i hlt
      omega
    rw [jsForLoop_of_not_lt body stop i h]
    rfl
  | succ k ih =>
    have hlt : i < stop := by
      by_contra hge
      have h0 : ⌈stop - i⌉ ≤ 0 :=
        Int.ceil_le.mpr (by push_cast; linarith [not_lt.mp hge])
      omega
    rw [jsForLoop_of_lt body stop i hlt]
    have h4 : (⌈stop - (i + 1)⌉).toNat = k := by
      have h2 := ceil_sub_succ stop i
      omega
    simp [List.length_cons, ih (i + 1) h4]

theorem jsForLoop_map {α β : Type} (f : α → β) (body : ℝ → α) (stop i : ℝ) :
    (jsForLoop body stop i).map f = jsForLoop (fun x => f (body x)) stop i := by
  generalize hn : (⌈stop - i⌉).toNat = n
  induction n generalizing i with
  | zero =>
    have h : ¬ i < stop := fun hlt => by
      have h1 := ceil_pos_of_lt stop i hlt
      omega
    rw [jsForLoop_of_not_lt body stop i h, jsForLoop_of_not_lt _ stop i h]
    rfl
  | succ k ih =>
    have hlt : i < stop := by
      by_contra hge
      have h0 : ⌈stop - i⌉ ≤ 0 :=
        Int.ceil_le.mpr (by push_cast; linarith [not_lt.mp hge])
      omega
    rw [jsForLoop_of_lt body stop i hlt, jsForLoop_of_lt _ stop i hlt]
    have h4 : (⌈stop - (i + 1)⌉).toNat = k := by
      have h2 := ceil_sub_succ stop i
      omega
    simp [ih (i + 1) h4]

/-- Length of a bead ring with valid geometry: exactly `pointCount`. -/
theorem createBeadRing_length (p : Params) (darkMode : Bool) (r idx : ℝ)
    (h0 : 0 < p.spacing) (h1 : p.spacing < 2 * r) :
    (createBeadRing p darkMode r idx).length = (pointCount p.spacing r).toNat := by
  have hr : 0 < 2 * r := lt_trans h0 h1
  have hx0 : 0 ≤ p.spacing / (2 * r) := div_nonneg h0.le hr.le
  have hx1 : p.spacing / (2 * r) ≤ 1 := le_of_lt ((div_lt_one hr).mpr h1)
  rw [createBeadRing, if_pos (abs_le.mpr ⟨by linarith, hx1⟩), jsForLoop_length]
  have heq : (pointCount p.spacing r : ℝ) + startingAngle p.rotation idx
      - (0 + startingAngle p.rotation idx) = ((pointCount p.spacing r : ℤ) : ℝ) := by
    ring
  rw [heq, Int.ceil_intCast]

/-! ### Numeric bounds for the concrete `spacing = 10`, `ringRadius = 100` ring -/

theorem sin_pi_div_62_ge : (1 : ℝ) / 20 ≤ Real.sin (Real.pi / 62) := by
  have h0 : (0 : ℝ) < Real.pi / 62 := by positivity
  have h1 : Real.pi / 62 ≤ 1 := by
    have := Real.pi_lt_d2
    linarith
  have h2 := Real.sin_gt_sub_cube h0 h1
  have hl : (3.14 : ℝ) < Real.pi := Real.pi_gt_d2
  have hu : Real.pi < 3.15 := Real.pi_lt_d2
  have hcube : (Real.pi / 62) ^ 3 < ((3.15 : ℝ) / 62) ^ 3 := by
    apply pow_lt_pow_left₀ (by linarith) (by positivity)
    norm_num
  have key : (1 : ℝ) / 20 ≤ 3.14 / 62 - ((3.15 : ℝ) / 62) ^ 3 / 4 := by norm_num
  linarith

theorem arcsin_one_twentieth_ub : Real.arcsin (1 / 20) ≤ Real.pi / 62 := by
  have hpi := Real.pi_pos
  rw [Real.arcsin_le_iff_le_sin (by constructor <;> norm_num)
    (by constructor <;> [linarith; linarith])]
  exact sin_pi_div_62_ge

theorem arcsin_one_twentieth_lb : Real.pi / 63 < Real.arcsin (1 / 20) := by
  have h1 : (1 : ℝ) / 20 < Real.arcsin (1 / 20) := by
    have hpos : (0 : ℝ) < Real.arcsin (1 / 20) := Real.arcsin_pos.mpr (by norm_num)
    have hs := Real.sin_lt hpos
    rwa [Real.sin_arcsin (by norm_num) (by norm_num)] at hs
  have h2 : Real.pi / 63 < 1 / 20 := by
    have := Real.pi_lt_d2
    linarith
  linarith

/-- The `createBeadRing` point count at `spacing = 10`, `ringRadius = 100`. -/
theorem pointCount_ten_hundred : pointCount 10 100 = 62 := by
  have h20 : (10 : ℝ) / (2 * 100) = 1 / 20 := by norm_num
  have hpos : (0 : ℝ) < Real.arcsin (1 / 20) := Real.arcsin_pos.mpr (by norm_num)
  rw [pointCount, angularSpacing, h20, Int.floor_eq_iff]
  constructor
  · rw [le_div_iff₀ (by positivity)]
    have := arcsin_one_twentieth_ub
    push_cast
    nlinarith
  · rw [div_lt_iff₀ (by positivity)]
    have := arcsin_one_twentieth_lb
    push_cast
    nlinarith

/-- C1: for valid geometry (`0 < spacing < 2 * ringRadius`), `createBeadRing`
computes the angular spacing as `2 * asin(spacing / (2 * ringRadius))`, the
point count as `⌊2π / angularSpacing⌋`, and pushes exactly that many beads;
at `spacing = 10`, `ringRadius = 100` the point count is `62`. -/
theorem createBeadRing_point_count (p : Params) (darkMode : Bool)
    (ringRadius ringIndex : ℝ)
    (h0 : 0 < p.spacing) (h1 : p.spacing < 2 * ringRadius) :
    angularSpacing p.spacing ringRadius
        = 2 * Real.arcsin (p.spacing / (2 * ringRadius)) ∧
    pointCount p.spacing ringRadius
        = ⌊2 * Real.pi / angularSpacing p.spacing ringRadius⌋ ∧
    (createBeadRing p darkMode ringRadius ringIndex).length
        = (pointCount p.spacing ringRadius).toNat ∧
    pointCount 10 100 = 62 := by
  refine ⟨rfl, rfl, ?_, pointCount_ten_hundred⟩
  exact createBeadRing_length p darkMode ringRadius ringIndex h0 h1

/-- C1 witness: the `spacing = 10`, `outerRingRadius = 100`, `numRings = 1`
scenario, hypotheses discharged at `ringRadius = 100`: the single ring holds
exactly 62 beads. -/
theorem createBeadRing_point_count_witness :
    (createBeadRing
        { spacing := 10, outerRingRadius := 100, numRings := 1, beadRadius := 5,
          drawCenterBead := true, animationRunning := true, rotation := 0,
          color1 := "#000", color2 := "#080593",
          height := 400, width := 400, scale := 1 } false 100 1).length
      = (pointCount 10 100).toNat :=
  (createBeadRing_point_count
    { spacing := 10, outerRingRadius := 100, numRings := 1, beadRadius := 5,
      drawCenterBead := true, animationRunning := true, rotation := 0,
      color1 := "#000", color2 := "#080593",
      height := 400, width := 400, scale := 1 } false 100 1
    (by norm_num) (by norm_num)).2.2.1

/-- C2: the motion closure returns `radius = |sin(log(i + 2) * t) * r|` and
color `color2` when the level is negative, `color1` otherwise; at `i = 0`,
`t = 0` it returns radius `0` and `color1`. -/
theorem generateMovement_spec (color1 color2 : String) (r i t : ℝ)
    (x y ringIdx : Option ℝ) :
    (generateMovement color1 color2 r i x y ringIdx t).radius
        = |Real.sin (Real.log (i + 2) * t) * r| ∧
    (generateMovement color1 color2 r i x y ringIdx t).color
        = (if Real.sin (Real.log (i + 2) * t) < 0 then color2 else color1) ∧
    (generateMovement color1 color2 r 0 x y ringIdx 0).radius = 0 ∧
    (generateMovement color1 color2 r 0 x y ringIdx 0).color = color1 := by
  refine ⟨rfl, rfl, ?_, ?_⟩
  · simp [generateMovement]
  · simp [generateMovement]

/-- A parameter snapshot with the component's default Leva values (at
`scale = 1`, except `spacing`, which the C1 scenario sets to 10). -/
def sampleParams : Params :=
  { spacing := 10, outerRingRadius := 100, numRings := 1, beadRadius := 5,
    drawCenterBead := true, animationRunning := true, rotation := 0,
    color1 := "#000", color2 := "#080593",
    height := 400, width := 400, scale := 1 }

/-- C3: ring `i` of `ringLayers` has radius
`outerRingRadius - i * (outerRingRadius / numRings)`; for `numRings ≥ 2` and
positive outer radius the radii strictly decrease; at `numRings = 3`,
`outerRingRadius = 90` the radii are `[90, 60, 30]`. -/
theorem ringLayers_radii (p : Params) (darkMode : Bool) (h : 1 ≤ p.numRings) :
    ((ringLayers p darkMode).map Ring.radius
        = (List.range p.numRings).map
            (fun (i : ℕ) => p.outerRingRadius - (i : ℝ) * (p.outerRingRadius / (p.numRings : ℝ)))) ∧
    (∀ i j : ℕ, i < j → j < p.numRings → 2 ≤ p.numRings → 0 < p.outerRingRadius →
        p.outerRingRadius - (j : ℝ) * (p.outerRingRadius / (p.numRings : ℝ))
          < p.outerRingRadius - (i : ℝ) * (p.outerRingRadius / (p.numRings : ℝ))) ∧
    ((ringLayers { sampleParams with outerRingRadius := 90, numRings := 3 } darkMode).map
        Ring.radius = [90, 60, 30]) := by
  refine ⟨?_, ?_, ?_⟩
  · rw [ringLayers, List.map_map]
    rfl
  · intro i j hij hj h2 houter
    have hn : (0 : ℝ) < (p.numRings : ℝ) := by
      have : 0 < p.numRings := by omega
      exact_mod_cast this
    have hc : 0 < p.outerRingRadius / (p.numRings : ℝ) := div_pos houter hn
    have hmul : (i : ℝ) * (p.outerRingRadius / (p.numRings : ℝ))
        < (j : ℝ) * (p.outerRingRadius / (p.numRings : ℝ)) :=
      mul_lt_mul_of_pos_right (by exact_mod_cast hij) hc
    linarith
  · have hrange : List.range 3 = [0, 1, 2] := by decide
    rw [ringLayers, hrange]
    simp only [List.map_cons, List.map_nil]
    norm_num

/-- C3 witness: `numRings = 3`, `outerRingRadius = 90` satisfies
`1 ≤ numRings`, and the ring radii come out as `[90, 60, 30]`. -/
theorem ringLayers_radii_witness :
    (ringLayers { sampleParams with outerRingRadius := 90, numRings := 3 } false).map
        Ring.radius = [90, 60, 30] :=
  (ringLayers_radii { sampleParams with outerRingRadius := 90, numRings := 3 } false
    (by norm_num)).2.2

/-- C4: for degenerate geometry (`spacing / (2 * ringRadius) > 1`, where
`Math.asin` yields `NaN`), the ring is empty and contributes no draw calls, so
no `NaN` radius or position reaches the 2D context. -/
theorem createBeadRing_degenerate (p : Params) (darkMode : Bool)
    (ringRadius ringIndex t : ℝ) (h : 1 < p.spacing / (2 * ringRadius)) :
    createBeadRing p darkMode ringRadius ringIndex = [] ∧
    (createBeadRing p darkMode ringRadius ringIndex).map (drawBead p darkMode t) = [] := by
  have habs : ¬ |p.spacing / (2 * ringRadius)| ≤ 1 :=
    not_le.mpr (lt_of_lt_of_le h (le_abs_self _))
  have hempty : createBeadRing p darkMode ringRadius ringIndex = [] := by
    rw [createBeadRing, if_neg habs]
  exact ⟨hempty, by rw [hempty]; rfl⟩

/-- C4 witness: `spacing = 300` on a ring of radius 100 gives the ratio
`1.5 > 1`; the ring is empty. -/
theorem createBeadRing_degenerate_witness :
    createBeadRing { sampleParams with spacing := 300 } false 100 1 = [] ∧
    (createBeadRing { sampleParams with spacing := 300 } false 100 1).map
        (drawBead { sampleParams with spacing := 300 } false 0) = [] :=
  createBeadRing_degenerate { sampleParams with spacing := 300 } false 100 1 0
    (by norm_num)

/-- For valid geometry the guard of `createBeadRing` passes and the ring is
the literal loop over `[startingAngle, pointCount + startingAngle)`. -/
theorem createBeadRing_eq_loop (p : Params) (darkMode : Bool) (r idx : ℝ)
    (h0 : 0 < p.spacing) (h1 : p.spacing < 2 * r) :
    createBeadRing p darkMode r idx
      = jsForLoop (fun i => mkBead p darkMode r idx (pointCount p.spacing r) i)
          ((pointCount p.spacing r : ℝ) + startingAngle p.rotation idx)
          (0 + startingAngle p.rotation idx) := by
  have hr : 0 < 2 * r := lt_trans h0 h1
  have hx0 : 0 ≤ p.spacing / (2 * r) := div_nonneg h0.le hr.le
  have hx1 : p.spacing / (2 * r) ≤ 1 := le_of_lt ((div_lt_one hr).mpr h1)
  rw [createBeadRing, if_pos (abs_le.mpr ⟨by linarith, hx1⟩)]

/-- C5 counterexample: at `rotation = 1/4` the outermost ring (the first one
`ringLayers` builds) is created with `ringIndex = 1`, and its generation loop
starts at `0 + π/2`, not at `0`: the first ring does receive an angular
starting offset. -/
theorem firstRing_offset_counterexample :
    ((ringLayers { sampleParams with rotation := 1/4 } false).map Ring.beads
        = [createBeadRing { sampleParams with rotation := 1/4 } false 100 1]) ∧
    (createBeadRing { sampleParams with rotation := 1/4 } false 100 1
        = jsForLoop
            (fun i => mkBead { sampleParams with rotation := 1/4 } false 100 1 62 i)
            (((62 : ℤ) : ℝ) + Real.pi / 2) (0 + Real.pi / 2)) ∧
    (0 : ℝ) + Real.pi / 2 ≠ 0 := by
  have hpc : pointCount ({ sampleParams with rotation := 1/4 } : Params).spacing 100 = 62 :=
    pointCount_ten_hundred
  have hsa : startingAngle ({ sampleParams with rotation := 1/4 } : Params).rotation 1
      = Real.pi / 2 := by
    rw [startingAngle]
    show (1 / 4 : ℝ) * (2 * Real.pi) * 1 = Real.pi / 2
    ring
  refine ⟨?_, ?_, ?_⟩
  · have hn : ({ sampleParams with rotation := 1/4 } : Params).numRings = 1 := rfl
    rw [ringLayers, hn]
    have hrange : List.range 1 = [0] := rfl
    rw [hrange]
    simp only [List.map_cons, List.map_nil]
    norm_num [sampleParams]
  · rw [createBeadRing_eq_loop _ false 100 1 (by norm_num [sampleParams])
      (by norm_num [sampleParams]), hpc, hsa]
  · have := Real.pi_pos
    intro h
    linarith

/-- C5 amended: the first ring `ringLayers` builds is passed `ringIndex = 0 + 1`,
so its starting angular offset is `startingAngle rotation 1 = rotation * 2π` —
nonzero whenever `rotation * 2π` is: the outermost ring is rotated, not fixed. -/
theorem firstRing_rotated (p : Params) (darkMode : Bool) (h : 1 ≤ p.numRings) :
    (ringLayers p darkMode).head? = some
        { radius := p.outerRingRadius - ((0 : ℕ) : ℝ) * (p.outerRingRadius / (p.numRings : ℝ)),
          beads := createBeadRing p darkMode
            (p.outerRingRadius - ((0 : ℕ) : ℝ) * (p.outerRingRadius / (p.numRings : ℝ)))
            (((0 : ℕ) : ℝ) + 1) } ∧
    startingAngle p.rotation (((0 : ℕ) : ℝ) + 1) = p.rotation * (2 * Real.pi) := by
  constructor
  · obtain ⟨k, hk⟩ : ∃ k, p.numRings = k + 1 := ⟨p.numRings - 1, by omega⟩
    rw [ringLayers, hk, List.range_succ_eq_map]
    rfl
  · rw [startingAngle]
    push_cast
    ring

/-- C5 amended witness: at `rotation = 1/4`, `numRings = 1`. -/
theorem firstRing_rotated_witness :
    ((ringLayers { sampleParams with rotation := 1/4 } false).head? = some
        { radius := ({ sampleParams with rotation := 1/4 } : Params).outerRingRadius
            - ((0 : ℕ) : ℝ) * (({ sampleParams with rotation := 1/4 } : Params).outerRingRadius
              / (({ sampleParams with rotation := 1/4 } : Params).numRings : ℝ)),
          beads := createBeadRing { sampleParams with rotation := 1/4 } false
            (({ sampleParams with rotation := 1/4 } : Params).outerRingRadius
              - ((0 : ℕ) : ℝ) * (({ sampleParams with rotation := 1/4 } : Params).outerRingRadius
                / (({ sampleParams with rotation := 1/4 } : Params).numRings : ℝ)))
            (((0 : ℕ) : ℝ) + 1) }) ∧
    startingAngle ({ sampleParams with rotation := 1/4 } : Params).rotation (((0 : ℕ) : ℝ) + 1)
      = ({ sampleParams with rotation := 1/4 } : Params).rotation * (2 * Real.pi) :=
  firstRing_rotated { sampleParams with rotation := 1/4 } false (by norm_num [sampleParams])

/-- C6 counterexample: no configuration with valid geometry — at any rotation,
fractional or not — makes the generation loop run a number of iterations
different from `pointCount`: the claimed "extra points" never exist. -/
theorem loop_count_counterexample :
    ¬ ∃ (p : Params) (darkMode : Bool) (ringRadius ringIndex : ℝ),
        0 < p.spacing ∧ p.spacing < 2 * ringRadius ∧
        (createBeadRing p darkMode ringRadius ringIndex).length
          ≠ (pointCount p.spacing ringRadius).toNat := by
  rintro ⟨p, darkMode, r, idx, h0, h1, hne⟩
  exact hne (createBeadRing_length p darkMode r idx h0 h1)

/-- C6 amended: for every rotation value (fractional included), the generation
loop performs exactly `pointCount` iterations; the fractional `startingAngle`
offset shifts the loop variable's values (hence the bead angles), never the
iteration count. -/
theorem loop_count_exact (p : Params) (darkMode : Bool) (ringRadius ringIndex : ℝ)
    (h0 : 0 < p.spacing) (h1 : p.spacing < 2 * ringRadius) :
    (createBeadRing p darkMode ringRadius ringIndex).length
      = (pointCount p.spacing ringRadius).toNat :=
  createBeadRing_length p darkMode ringRadius ringIndex h0 h1

/-- C6 amended witness: fractional `rotation = 1/3` still yields exactly
`pointCount 10 100` beads on the radius-100 ring. -/
theorem loop_count_exact_witness :
    (createBeadRing { sampleParams with rotation := 1/3 } false 100 1).length
      = (pointCount 10 100).toNat :=
  loop_count_exact { sampleParams with rotation := 1/3 } false 100 1
    (by norm_num [sampleParams]) (by norm_num [sampleParams])

/-! ### Frame-renderer lemmas -/

theorem ringDrawCalls_eq_map (p : Params) (darkMode : Bool) (t : ℝ) :
    ringDrawCalls p darkMode t
      = ((ringLayers p darkMode).flatMap Ring.beads).map (drawBead p darkMode t) := by
  rw [ringDrawCalls, List.map_flatMap]

theorem setAnim_drawCenterBead (p : Params) (b : Bool) :
    ({ p with animationRunning := b } : Params).drawCenterBead = p.drawCenterBead := rfl

theorem frameDrawCalls_length (p : Params) (darkMode : Bool) (t : ℝ) :
    (frameDrawCalls p darkMode t).length
      = 1 + ((ringLayers p darkMode).flatMap Ring.beads).length
        + (if p.drawCenterBead then 1 else 0) := by
  rw [frameDrawCalls]
  cases hdc : p.drawCenterBead <;>
    simp [hdc, ringDrawCalls_eq_map, Nat.add_comm]

/-- C7: at a fixed elapsed time, toggling `animationRunning` from true to
false keeps the number of draw calls and every call's center unchanged, while
every ring bead's drawn radius switches from `move(t).radius` to its stored
base radius, and the center bead's from the motion radius to `beadRadius`. -/
theorem animation_toggle (p : Params) (darkMode : Bool) (t : ℝ) :
    ((frameDrawCalls { p with animationRunning := true } darkMode t).length
        = (frameDrawCalls { p with animationRunning := false } darkMode t).length) ∧
    ((frameDrawCalls { p with animationRunning := true } darkMode t).map DrawCall.callCenter
        = (frameDrawCalls { p with animationRunning := false } darkMode t).map
            DrawCall.callCenter) ∧
    ((ringDrawCalls { p with animationRunning := true } darkMode t).map DrawCall.callRadius
        = ((ringLayers p darkMode).flatMap Ring.beads).map (fun b => some ((b.move t).radius))) ∧
    ((ringDrawCalls { p with animationRunning := false } darkMode t).map DrawCall.callRadius
        = ((ringLayers p darkMode).flatMap Ring.beads).map (fun b => some b.radius)) ∧
    ((centerBeadCall { p with animationRunning := true } t).callRadius
        = some ((generateMovement p.color1 p.color2 p.beadRadius 0 none none none t).radius)) ∧
    ((centerBeadCall { p with animationRunning := false } t).callRadius
        = some p.beadRadius) := by
  refine ⟨?_, ?_, ?_, ?_, rfl, rfl⟩
  · rw [frameDrawCalls_length, frameDrawCalls_length]
    rfl
  · rw [frameDrawCalls, frameDrawCalls]
    simp only [List.map_cons, List.map_append]
    have hring : (ringDrawCalls { p with animationRunning := true } darkMode t).map
        DrawCall.callCenter
        = (ringDrawCalls { p with animationRunning := false } darkMode t).map
            DrawCall.callCenter := by
      rw [ringDrawCalls_eq_map, ringDrawCalls_eq_map, List.map_map, List.map_map]
      rfl
    rw [hring]
    cases hdc : p.drawCenterBead <;>
      simp [setAnim_drawCenterBead, hdc, centerBeadCall, DrawCall.callCenter,
        canvasCenterX, canvasCenterY]
  · rw [ringDrawCalls_eq_map, List.map_map]
    rfl
  · rw [ringDrawCalls_eq_map, List.map_map]
    rfl

/-- C8: with `drawCenterBead = false` and valid geometry on every ring, one
frame issues exactly the sum over rings of that ring's `pointCount`
filled-circle calls, and no center-bead call. -/
theorem frame_circle_count (p : Params) (darkMode : Bool) (t : ℝ)
    (hc : p.drawCenterBead = false) (hs : 0 < p.spacing)
    (hr : ∀ i : ℕ, i < p.numRings →
        p.spacing < 2 * (p.outerRingRadius - (i : ℝ) * (p.outerRingRadius / (p.numRings : ℝ)))) :
    (frameDrawCalls p darkMode t).countP DrawCall.isCircle
      = ((List.range p.numRings).map (fun (i : ℕ) =>
          (pointCount p.spacing
            (p.outerRingRadius - (i : ℝ) * (p.outerRingRadius / (p.numRings : ℝ)))).toNat)).sum := by
  have hcirc : ∀ a ∈ ringDrawCalls p darkMode t, DrawCall.isCircle a = true := by
    intro a ha
    rw [ringDrawCalls_eq_map] at ha
    obtain ⟨b, hb, rfl⟩ := List.mem_map.mp ha
    rfl
  calc (frameDrawCalls p darkMode t).countP DrawCall.isCircle
      = (ringDrawCalls p darkMode t).countP DrawCall.isCircle := by
        simp [frameDrawCalls, hc, List.countP_cons, List.countP_append, DrawCall.isCircle]
    _ = (ringDrawCalls p darkMode t).length := List.countP_eq_length.mpr hcirc
    _ = ((ringLayers p darkMode).flatMap Ring.beads).length := by
        rw [ringDrawCalls_eq_map, List.length_map]
    _ = ((ringLayers p darkMode).map (fun ring => ring.beads.length)).sum :=
        List.length_flatMap _ _
    _ = ((List.range p.numRings).map (fun (i : ℕ) =>
          (createBeadRing p darkMode
            (p.outerRingRadius - (i : ℝ) * (p.outerRingRadius / (p.numRings : ℝ)))
            ((i : ℝ) + 1)).length)).sum := by
        rw [ringLayers, List.map_map]
        rfl
    _ = ((List.range p.numRings).map (fun (i : ℕ) =>
          (pointCount p.spacing
            (p.outerRingRadius - (i : ℝ) * (p.outerRingRadius / (p.numRings : ℝ)))).toNat)).sum := by
        congr 1
        apply List.map_congr_left
        intro i hi
        exact createBeadRing_length p darkMode _ _ hs (hr i (List.mem_range.mp hi))

/-- C8 witness: `spacing = 10`, `outerRingRadius = 100`, one ring, no center
bead: the frame issues exactly `pointCount 10 100` circle calls. -/
theorem frame_circle_count_witness :
    (frameDrawCalls { sampleParams with drawCenterBead := false } false 0).countP
        DrawCall.isCircle
      = ((List.range 1).map (fun (i : ℕ) =>
          (pointCount 10 ((100 : ℝ) - (i : ℝ) * (100 / ((1 : ℕ) : ℝ)))).toNat)).sum :=
  frame_circle_count { sampleParams with drawCenterBead := false } false 0 rfl
    (by norm_num [sampleParams])
    (by
      intro i hi
      have h0 : i = 0 := by
        simpa [sampleParams] using hi
      subst h0
      norm_num [sampleParams])

/-- C9 counterexample: with `animationRunning = false` and `numRings = 0`, the
center bead is drawn with the static radius 5 but with color `color1 = "#111"`
coming from the motion function — not with the static fallback color
`beadColor false = "#000"`. -/
theorem center_bead_color_counterexample :
    (frameDrawCalls { sampleParams with
        numRings := 0, animationRunning := false,
        color1 := "#111", color2 := "#222" } false 0
      = [DrawCall.clearRect 0 0 400 400, DrawCall.circle 200 200 5 ("#111")]) ∧
    ("#111" : String) ≠ beadColor false := by
  constructor
  · have hcol : (generateMovement ("#111") ("#222") 5 0 none none none 0).color
        = "#111" := by
      simp [generateMovement]
    simp [frameDrawCalls, ringDrawCalls, ringLayers, centerBeadCall,
      canvasCenterX, canvasCenterY, sampleParams, hcol]
    norm_num
  · intro h
    simp [beadColor] at h

/-- C9 amended: if `drawCenterBead` is set, the last call of every frame is a
center-bead circle at the canvas center whose radius follows the animation
policy (motion radius when running, else static `beadRadius`), but whose
color is always the motion function's color at the current elapsed time —
the static fallback color is never used for the center bead. -/
theorem center_bead_call_spec (p : Params) (darkMode : Bool) (t : ℝ)
    (h : p.drawCenterBead = true) :
    (frameDrawCalls p darkMode t).getLast? = some (DrawCall.circle
      (canvasCenterX p) (canvasCenterY p)
      (if p.animationRunning
        then (generateMovement p.color1 p.color2 p.beadRadius 0 none none none t).radius
        else p.beadRadius)
      ((generateMovement p.color1 p.color2 p.beadRadius 0 none none none t).color)) := by
  rw [frameDrawCalls, h, if_pos rfl, List.getLast?_concat]
  rfl

/-- C9 amended witness: at the default parameters (`drawCenterBead = true`). -/
theorem center_bead_call_spec_witness :
    (frameDrawCalls sampleParams false 0).getLast? = some (DrawCall.circle
      (canvasCenterX sampleParams) (canvasCenterY sampleParams)
      (if sampleParams.animationRunning
        then (generateMovement sampleParams.color1 sampleParams.color2
          sampleParams.beadRadius 0 none none none 0).radius
        else sampleParams.beadRadius)
      ((generateMovement sampleParams.color1 sampleParams.color2
        sampleParams.beadRadius 0 none none none 0).color)) :=
  center_bead_call_spec sampleParams false 0 rfl

/-- C10: with `animationRunning = false`, the ring-bead draw calls do not
depend on `color1`/`color2`: changing only those two parameters leaves the
ring-bead portion of the frame unchanged (each ring bead is filled with the
static theme color chosen at creation, not with `color1`/`color2`). -/
theorem ringDrawCalls_color_independent (p : Params) (darkMode : Bool) (t : ℝ)
    (c1 c2 : String) (h : p.animationRunning = false) :
    ringDrawCalls { p with color1 := c1, color2 := c2 } darkMode t
      = ringDrawCalls p darkMode t := by
  have hq : ({ p with color1 := c1, color2 := c2 } : Params).animationRunning = false := h
  have hstat : ∀ (q : Params), q.animationRunning = false → ∀ l : List Bead,
      l.map (drawBead q darkMode t)
        = l.map (fun b => DrawCall.circle b.x b.y b.radius (beadColor darkMode)) := by
    intro q hqf l
    apply List.map_congr_left
    intro b hb
    simp [drawBead, hqf]
  have hring : ∀ r idx : ℝ,
      (createBeadRing { p with color1 := c1, color2 := c2 } darkMode r idx).map
        (drawBead { p with color1 := c1, color2 := c2 } darkMode t)
      = (createBeadRing p darkMode r idx).map (drawBead p darkMode t) := by
    intro r idx
    rw [hstat _ hq, hstat _ h]
    by_cases hguard : |p.spacing / (2 * r)| ≤ 1
    · have hgq : |({ p with color1 := c1, color2 := c2 } : Params).spacing / (2 * r)| ≤ 1 :=
        hguard
      rw [createBeadRing, createBeadRing, if_pos hgq, if_pos hguard,
        jsForLoop_map, jsForLoop_map]
      rfl
    · have hgq : ¬ |({ p with color1 := c1, color2 := c2 } : Params).spacing / (2 * r)| ≤ 1 :=
        hguard
      rw [createBeadRing, createBeadRing, if_neg hgq, if_neg hguard]
  rw [ringDrawCalls, ringDrawCalls, ringLayers, ringLayers,
    List.flatMap_map, List.flatMap_map]
  apply List.flatMap_congr
  intro i hi
  exact hring _ _

/-- C10 witness: the default one-ring layout with animation off, recolored to
`"#111"`/`"#222"`, draws the same ring beads. -/
theorem ringDrawCalls_color_independent_witness :
    ringDrawCalls { { sampleParams with animationRunning := false } with
        color1 := "#111", color2 := "#222" } false 0
      = ringDrawCalls { sampleParams with animationRunning := false } false 0 :=
  ringDrawCalls_color_independent { sampleParams with animationRunning := false } false 0
    ("#111") ("#222") rfl

end Speeka
